import Mathlib

/-!
Shallow embedding of the punks2 playback engine
(`crates/punks-playback/src/lib.rs`, `decode.rs`, `resample.rs`).

Sample values (`f32` in the source) are modelled as `Int`: the engine only
moves sample values verbatim and writes the silence value `0.0`; it performs
no arithmetic on them, so any type with a distinguished zero is faithful.
Machine `usize` counters are modelled as `Nat`; Rust's `saturating_sub` is
Nat subtraction. Fallible functions return `Except PlaybackError`.
-/

abbrev Sample := Int

/-- `PlaybackError` from `lib.rs` lines 27-32. -/
inductive PlaybackError
  | DecodeError (msg : String)
  | DeviceError (msg : String)
  | UnsupportedFormat
deriving Repr, DecidableEq

/-- `SharedState` from `lib.rs` lines 46-54: the cross-thread playback state.
The `RwLock` / atomics wrappers are dropped; the callback's `try_read`
outcome is passed to `audio_callback` as an explicit boolean. -/
structure SharedState where
  samples : List Sample
  cursor : Nat
  playing : Bool
  total_frames : Nat
deriving Repr, DecidableEq

/-- `PreparedAudio` from `lib.rs` lines 56-60 (paths as strings). -/
structure PreparedAudio where
  samples : List Sample
  total_frames : Nat
  file : String
deriving Repr, DecidableEq

/-- `PendingLoad` from `lib.rs` lines 62-65. The `mpsc::Receiver` is
modelled as the identifier of the one-shot channel the load is bound to;
what arrives on that channel is supplied to `poll` explicitly. -/
structure PendingLoad where
  file : String
  chan : Nat
deriving Repr, DecidableEq

/-- Control-thread-owned part of `PlaybackEngine` (`lib.rs` lines 67-74);
the `cpal::Stream` handle has no behaviour beyond invoking the callback. -/
structure PlaybackEngine where
  shared : SharedState
  device_sample_rate : Nat
  device_channels : Nat
  current_file : Option String
  pending : Option PendingLoad
deriving Repr, DecidableEq

/-- `adapt_channels` from `lib.rs` lines 283-303: convert interleaved audio
between channel counts (`src` = `from`, `dst` = `to`; `from` is a Lean
keyword). Indexing `samples[base + ch]` is in bounds in the source for
every pushed element, so `getD _ 0` agrees with it. -/
def adapt_channels (samples : List Sample) (src dst : Nat) : List Sample :=
  if src = dst ∨ src = 0 ∨ dst = 0 then samples
  else
    let num_frames := samples.length / src
    (List.range num_frames).flatMap (fun frame =>
      (List.range dst).map (fun ch =>
        if ch < src then samples.getD (frame * src + ch) 0
        else samples.getD (frame * src + (src - 1)) 0))

/-- `audio_callback` from `lib.rs` lines 258-280. `dataLen` is the length of
the hardware-provided output buffer; `canRead` is the outcome of
`shared.samples.try_read()`. Returns the filled output buffer and the
updated shared state. -/
def audio_callback (dataLen : Nat) (canRead : Bool) (s : SharedState) :
    List Sample × SharedState :=
  if !s.playing then
    (List.replicate dataLen 0, s)
  else if canRead then
    let cursor := s.cursor
    let remaining := s.samples.length - cursor
    let to_copy := min remaining dataLen
    let out := (s.samples.drop cursor).take to_copy ++
      List.replicate (dataLen - to_copy) 0
    let s1 := if to_copy < dataLen then { s with playing := false } else s
    (out, { s1 with cursor := cursor + to_copy })
  else
    (List.replicate dataLen 0, s)

/-- `DecodedAudio` from `decode.rs` lines 13-17. -/
structure DecodedAudio where
  interleaved : List Sample
  channels : Nat
  sample_rate : Nat
deriving Repr, DecidableEq

/-- One iteration of the packet loop of `decode_file` (`decode.rs` lines
60-98), as observed through the external symphonia decoder: a packet either
contributes a block of interleaved samples (`chunk`), is skipped (wrong
track id, recoverable `DecodeError`, or zero frames — lines 74-76, 80-83,
90-92), or aborts the loop with an unrecoverable error (lines 71, 84). -/
inductive PacketEvent
  | chunk (samples : List Sample)
  | skip
  | fatal (msg : String)
deriving Repr, DecidableEq

/-- The accumulation of `all_samples` over the packet loop of `decode_file`
(`decode.rs` lines 58-98). EOF / `ResetRequired` end the list. -/
def collect_samples : List PacketEvent → List Sample →
    Except PlaybackError (List Sample)
  | [], acc => .ok acc
  | .chunk s :: rest, acc => collect_samples rest (acc ++ s)
  | .skip :: rest, acc => collect_samples rest acc
  | .fatal m :: _, _ => .error (.DecodeError m)

/-- `decode_file` from `decode.rs` lines 19-109. The probe/codec setup and
the packet stream are external; `packets` is the observed packet outcome
sequence and `channels` / `sample_rate` the track parameters the setup
produced. The emptiness check is lines 100-102. -/
def decode_file (packets : List PacketEvent) (channels sample_rate : Nat) :
    Except PlaybackError DecodedAudio :=
  match collect_samples packets [] with
  | .error e => .error e
  | .ok all_samples =>
    if all_samples.isEmpty then
      .error (.DecodeError "no audio data decoded")
    else
      .ok { interleaved := all_samples, channels := channels,
            sample_rate := sample_rate }

/-- The de-interleave step of `resample` (`resample.rs` lines 34-40):
`channel_data[ch][frame] = interleaved[frame * channels + ch]`, an in-bounds
access for `frame < num_frames`, `ch < channels`. -/
def deinterleave (interleaved : List Sample) (channels num_frames : Nat) :
    List (List Sample) :=
  (List.range channels).map (fun ch =>
    (List.range num_frames).map (fun frame =>
      interleaved.getD (frame * channels + ch) 0))

/-- The re-interleave step of `resample` (`resample.rs` lines 76-83):
`out_frames = output_channels[0].len()`, then push `ch[frame]` for each
channel of each frame. -/
def reinterleave (output_channels : List (List Sample)) : List Sample :=
  let out_frames := (output_channels.headD []).length
  (List.range out_frames).flatMap (fun frame =>
    output_channels.map (fun ch => ch.getD frame 0))

/-- `resample` from `resample.rs` lines 8-86. The rubato FFT resampler is an
external collaborator; `proc` stands for the chunked
`process`/`process_partial` loop (lines 42-74): it maps the de-interleaved
per-channel input vectors to the accumulated per-channel output vectors. -/
def resample (proc : List (List Sample) → List (List Sample))
    (interleaved : List Sample) (channels source_rate target_rate : Nat) :
    Except PlaybackError (List Sample) :=
  if channels = 0 then
    .ok []
  else
    let num_frames := interleaved.length / channels
    if num_frames = 0 then
      .ok []
    else
      .ok (reinterleave (proc (deinterleave interleaved channels num_frames)))

/-- `decode_and_prepare` from `lib.rs` lines 230-256: decode, channel-adapt,
resample only when the source rate differs from the target rate, then
package the buffer with `total_frames = samples.len() / target_channels`
and the originating path. The unused `source_rate`/`target_rate` pair is
threaded to `resample` exactly as in the source. -/
def decode_and_prepare (path : String) (packets : List PacketEvent)
    (src_channels src_rate : Nat)
    (proc : List (List Sample) → List (List Sample))
    (target_channels target_rate : Nat) :
    Except PlaybackError PreparedAudio :=
  match decode_file packets src_channels src_rate with
  | .error e => .error e
  | .ok decoded =>
    let samples := adapt_channels decoded.interleaved decoded.channels
      target_channels
    match (if decoded.sample_rate ≠ target_rate then
             resample proc samples target_channels decoded.sample_rate
               target_rate
           else .ok samples) with
    | .error e => .error e
    | .ok samples =>
      .ok { samples := samples,
            total_frames := samples.length / target_channels,
            file := path }

/-- What `pending.receiver.try_recv()` can yield in `poll` (`lib.rs` line
159): a message (itself a `Result`), `Empty`, or `Disconnected`. -/
inductive TryRecvResult
  | msg (r : Except PlaybackError PreparedAudio)
  | empty
  | disconnected

/-- `PlaybackEngine::poll` from `lib.rs` lines 156-186. `recv` is what
`try_recv` on the current pending receiver yields; with no pending load the
receiver is never consulted and the engine is unchanged (line 157). -/
def poll (recv : TryRecvResult) (e : PlaybackEngine) :
    PlaybackEngine × Option PlaybackError :=
  match e.pending with
  | none => (e, none)
  | some _ =>
    match recv with
    | .msg (.ok audio) =>
      ({ e with
          shared := { samples := audio.samples, cursor := 0,
                      playing := true, total_frames := audio.total_frames },
          current_file := some audio.file,
          pending := none }, none)
    | .msg (.error err) =>
      ({ e with pending := none }, some err)
    | .empty => (e, none)
    | .disconnected =>
      ({ e with pending := none },
       some (.DecodeError "decode thread terminated unexpectedly"))

/-- A world pairs the engine with the spawned-worker bookkeeping needed to
talk about superseded loads: `worker c` is the path the worker bound to
channel `c` is decoding (`lib.rs` lines 140-146 spawn one worker per fresh
channel) and `nextChan` is the next fresh channel identifier. -/
structure World where
  engine : PlaybackEngine
  worker : Nat → Option String
  nextChan : Nat

/-- `PlaybackEngine::play` from `lib.rs` lines 130-152: clear the playing
flag, drop any previous `PendingLoad`, spawn a worker on a fresh one-shot
channel, and record the new `PendingLoad`. -/
def play (w : World) (path : String) : World :=
  let c := w.nextChan
  { engine := { w.engine with
      shared := { w.engine.shared with playing := false },
      pending := some { file := path, chan := c } },
    worker := fun n => if n = c then some path else w.worker n,
    nextChan := c + 1 }

/-- What can arrive on channel `c` in world `w`: nothing yet (`empty`), a
dropped sender (`disconnected`), or the result the worker bound to `c`
computed — `decode_and_prepare` of that worker's path against the engine's
device channel count and sample rate (`lib.rs` lines 137-146). -/
def deliverable (w : World) (c : Nat) : TryRecvResult → Prop
  | .msg r => ∃ path packets src_channels src_rate proc,
      w.worker c = some path ∧
      r = decode_and_prepare path packets src_channels src_rate proc
        w.engine.device_channels w.engine.device_sample_rate
  | .empty => True
  | .disconnected => True

/-- One field store inside the commit branch of `poll` (`lib.rs` lines
160-170), used to state the publication order of the commit. -/
inductive WriteEvent
  | wsamples (v : List Sample)
  | wcursor (v : Nat)
  | wtotal (v : Nat)
  | wplaying (v : Bool)
deriving Repr, DecidableEq

def applyEvent (s : SharedState) : WriteEvent → SharedState
  | .wsamples v => { s with samples := v }
  | .wcursor v => { s with cursor := v }
  | .wtotal v => { s with total_frames := v }
  | .wplaying v => { s with playing := v }

def applyEvents (s : SharedState) (l : List WriteEvent) : SharedState :=
  l.foldl applyEvent s

/-- The shared-state stores of the commit branch of `poll`, in program
order (`lib.rs` lines 162-170): buffer, then cursor, then total_frames,
then the playing flag. -/
def commit_trace (audio : PreparedAudio) : List WriteEvent :=
  [.wsamples audio.samples, .wcursor 0, .wtotal audio.total_frames,
   .wplaying true]

/-- The safety invariant relating the callback's cursor to the committed
buffer: whenever the playing flag is set, the cursor is within the sample
buffer (`lib.rs`: `cursor` only grows in `audio_callback` line 276 and is
reset to 0 in `poll` line 165 before the flag is set). -/
def cursorInv (s : SharedState) : Prop :=
  s.playing = true → s.cursor ≤ s.samples.length

/-! ### Helper lemmas -/

theorem length_flatMap_range_const (f : Nat → List Sample) (k : Nat)
    (hk : ∀ i, (f i).length = k) :
    ∀ n, ((List.range n).flatMap f).length = n * k := by
  intro n
  induction n with
  | zero => simp
  | succ m ih =>
    rw [List.range_succ, List.flatMap_append _ _ _, List.length_append, ih]
    simp [hk, Nat.succ_mul]

theorem getD_flatMap_range_const (f : Nat → List Sample) (k : Nat)
    (hk : ∀ i, (f i).length = k) :
    ∀ n i j, i < n → j < k →
      ((List.range n).flatMap f).getD (i * k + j) 0 = (f i).getD j 0 := by
  intro n
  induction n with
  | zero => intro i j hi _; omega
  | succ m ih =>
    intro i j hi hj
    rw [List.range_succ, List.flatMap_append _ _ _]
    by_cases him : i < m
    · rw [List.getD_append]
      · exact ih i j him hj
      · rw [length_flatMap_range_const f k hk m]
        have h1 : i * k + k ≤ m * k := by
          calc i * k + k = (i + 1) * k := by ring
            _ ≤ m * k := Nat.mul_le_mul_right k him
        omega
    · have him' : i = m := by omega
      subst him'
      rw [List.getD_append_right]
      · rw [length_flatMap_range_const f k hk i]
        have h2 : i * k + j - i * k = j := by omega
        rw [h2]
        simp
      · rw [length_flatMap_range_const f k hk i]
        omega

theorem getD_replicate_zero (n i : Nat) :
    (List.replicate n (0 : Sample)).getD i 0 = 0 := by
  rcases Nat.lt_or_ge i n with h | h
  · rw [List.getD_eq_getElem _ _ (by simpa using h)]
    simp
  · exact List.getD_eq_default _ _ (by simpa using h)

theorem adapt_channels_length_ne (samples : List Sample) (src dst : Nat)
    (hsrc : src ≠ 0) (hdst : dst ≠ 0) (hne : src ≠ dst) :
    (adapt_channels samples src dst).length = samples.length / src * dst := by
  unfold adapt_channels
  rw [if_neg (by tauto)]
  exact length_flatMap_range_const _ dst (fun i => by simp) _

theorem adapt_channels_getD (samples : List Sample) (src dst : Nat)
    (hsrc : src ≠ 0) (hdst : dst ≠ 0) (hne : src ≠ dst)
    (frame ch : Nat) (hf : frame < samples.length / src) (hc : ch < dst) :
    (adapt_channels samples src dst).getD (frame * dst + ch) 0 =
      if ch < src then samples.getD (frame * src + ch) 0
      else samples.getD (frame * src + (src - 1)) 0 := by
  unfold adapt_channels
  rw [if_neg (by tauto)]
  rw [getD_flatMap_range_const _ dst (fun i => by simp) _ frame ch hf hc]
  rw [List.getD_eq_getElem _ _ (by simpa using hc)]
  simp

theorem collect_samples_dvd (c : Nat) :
    ∀ (packets : List PacketEvent) (acc out : List Sample),
      (∀ s, PacketEvent.chunk s ∈ packets → c ∣ s.length) →
      c ∣ acc.length → collect_samples packets acc = .ok out →
      c ∣ out.length := by
  intro packets
  induction packets with
  | nil =>
    intro acc out _ hacc hc
    simp only [collect_samples, Except.ok.injEq] at hc
    subst hc
    exact hacc
  | cons p rest ih =>
    intro acc out hch hacc hc
    cases p with
    | chunk s =>
      refine ih (acc ++ s) out (fun t ht => hch t (by simp [ht])) ?_ hc
      rw [List.length_append]
      exact Nat.dvd_add hacc (hch s (by simp))
    | skip => exact ih acc out (fun t ht => hch t (by simp [ht])) hacc hc
    | fatal m => simp [collect_samples] at hc

theorem deinterleave_length (interleaved : List Sample)
    (channels num_frames : Nat) :
    (deinterleave interleaved channels num_frames).length = channels := by
  simp [deinterleave]

theorem reinterleave_length (chans : List (List Sample)) :
    (reinterleave chans).length =
      (chans.headD []).length * chans.length := by
  unfold reinterleave
  exact length_flatMap_range_const _ chans.length (fun i => by simp) _

theorem resample_ok_dvd (proc : List (List Sample) → List (List Sample))
    (hproc : ∀ cd, (proc cd).length = cd.length)
    (interleaved : List Sample) (channels sr tr : Nat) (out : List Sample)
    (h : resample proc interleaved channels sr tr = .ok out) :
    channels ∣ out.length := by
  unfold resample at h
  by_cases hch : channels = 0
  · rw [if_pos hch] at h
    simp only [Except.ok.injEq] at h
    subst h
    simp
  · rw [if_neg hch] at h
    have h' : (if interleaved.length / channels = 0 then
        (Except.ok [] : Except PlaybackError (List Sample))
      else .ok (reinterleave (proc (deinterleave interleaved channels
        (interleaved.length / channels))))) = .ok out := h
    split at h'
    · simp only [Except.ok.injEq] at h'
      subst h'
      simp
    · simp only [Except.ok.injEq] at h'
      subst h'
      rw [reinterleave_length, hproc, deinterleave_length]
      exact ⟨_, Nat.mul_comm _ _⟩

theorem decode_file_ok (packets : List PacketEvent)
    (channels sample_rate : Nat) (d : DecodedAudio)
    (h : decode_file packets channels sample_rate = .ok d) :
    collect_samples packets [] = .ok d.interleaved ∧
    d.channels = channels ∧ d.sample_rate = sample_rate ∧
    d.interleaved ≠ [] := by
  unfold decode_file at h
  cases hcs : collect_samples packets [] with
  | error e => rw [hcs] at h; simp at h
  | ok all =>
    rw [hcs] at h
    have h' : (if all.isEmpty then
        (Except.error (PlaybackError.DecodeError "no audio data decoded") :
          Except PlaybackError DecodedAudio)
      else .ok ⟨all, channels, sample_rate⟩) = .ok d := h
    split at h'
    next hemp => exact absurd h' (by simp)
    next hne =>
      have h2 : (⟨all, channels, sample_rate⟩ : DecodedAudio) = d :=
        Except.ok.inj h'
      subst h2
      exact ⟨rfl, rfl, rfl,
        fun hnil => hne (by simp [show all = [] from hnil])⟩

theorem adapt_channels_eq (samples : List Sample) (c : Nat) :
    adapt_channels samples c c = samples := by
  unfold adapt_channels
  rw [if_pos (Or.inl rfl)]

theorem decode_and_prepare_ok (path : String) (packets : List PacketEvent)
    (sc sr : Nat) (proc : List (List Sample) → List (List Sample))
    (tc tr : Nat) (audio : PreparedAudio)
    (h : decode_and_prepare path packets sc sr proc tc tr = .ok audio) :
    audio.file = path ∧
    audio.total_frames = audio.samples.length / tc ∧
    ∃ d, decode_file packets sc sr = .ok d ∧
      ((d.sample_rate ≠ tr ∧
        resample proc (adapt_channels d.interleaved d.channels tc) tc
          d.sample_rate tr = .ok audio.samples) ∨
       (d.sample_rate = tr ∧
        audio.samples = adapt_channels d.interleaved d.channels tc)) := by
  unfold decode_and_prepare at h
  cases hdf : decode_file packets sc sr with
  | error e => rw [hdf] at h; simp at h
  | ok d =>
    rw [hdf] at h
    have h' : (match (if d.sample_rate ≠ tr then
          resample proc (adapt_channels d.interleaved d.channels tc) tc
            d.sample_rate tr
        else .ok (adapt_channels d.interleaved d.channels tc)) with
      | Except.error e => (Except.error e : Except PlaybackError PreparedAudio)
      | Except.ok samples =>
          Except.ok { samples := samples,
                      total_frames := samples.length / tc,
                      file := path }) = .ok audio := h
    by_cases hrate : d.sample_rate ≠ tr
    · rw [if_pos hrate] at h'
      cases hr : resample proc (adapt_channels d.interleaved d.channels tc)
          tc d.sample_rate tr with
      | error e => rw [hr] at h'; simp at h'
      | ok out =>
        rw [hr] at h'
        have h'' : (Except.ok
            { samples := out,
              total_frames := out.length / tc,
              file := path } :
            Except PlaybackError PreparedAudio) = .ok audio := h'
        simp only [Except.ok.injEq] at h''
        subst h''
        exact ⟨rfl, rfl, d, rfl, Or.inl ⟨hrate, hr⟩⟩
    · rw [if_neg hrate] at h'
      have h'' : (Except.ok
          { samples := adapt_channels d.interleaved d.channels tc,
            total_frames :=
              (adapt_channels d.interleaved d.channels tc).length / tc,
            file := path } : Except PlaybackError PreparedAudio) =
          .ok audio := h'
      simp only [Except.ok.injEq] at h''
      subst h''
      exact ⟨rfl, rfl, d, rfl, Or.inr ⟨by omega, rfl⟩⟩

/-! ### Claim theorems -/

/-- C6: for nonzero source and target channel counts with `src ≠ dst`,
`adapt_channels` emits one output frame per input frame; the first
`min src dst` channels of each output frame copy the corresponding input
channels verbatim, and when `dst > src` every extra output channel repeats
the input frame's last channel value. In particular mono→stereo duplicates
the single channel into both output channels of every frame, and
stereo→mono keeps only channel 0's values. -/
theorem adapt_channels_spec (samples : List Sample) (src dst : Nat)
    (hsrc : 0 < src) (hdst : 0 < dst) (hne : src ≠ dst) :
    (adapt_channels samples src dst).length = samples.length / src * dst ∧
    (∀ frame ch, frame < samples.length / src → ch < dst → ch < src →
      (adapt_channels samples src dst).getD (frame * dst + ch) 0 =
        samples.getD (frame * src + ch) 0) ∧
    (∀ frame ch, frame < samples.length / src → ch < dst → src ≤ ch →
      (adapt_channels samples src dst).getD (frame * dst + ch) 0 =
        samples.getD (frame * src + (src - 1)) 0) ∧
    (∀ mono : List Sample, ∀ frame, frame < mono.length →
      (adapt_channels mono 1 2).getD (frame * 2) 0 = mono.getD frame 0 ∧
      (adapt_channels mono 1 2).getD (frame * 2 + 1) 0 = mono.getD frame 0) ∧
    (∀ stereo : List Sample, ∀ frame, frame < stereo.length / 2 →
      (adapt_channels stereo 2 1).getD frame 0 =
        stereo.getD (frame * 2) 0) := by
  refine ⟨adapt_channels_length_ne samples src dst (by omega) (by omega) hne,
    ?_, ?_, ?_, ?_⟩
  · intro frame ch hf hc hcs
    rw [adapt_channels_getD samples src dst (by omega) (by omega) hne
      frame ch hf hc]
    rw [if_pos hcs]
  · intro frame ch hf hc hcs
    rw [adapt_channels_getD samples src dst (by omega) (by omega) hne
      frame ch hf hc]
    rw [if_neg (by omega)]
  · intro mono frame hf
    constructor
    · have h := adapt_channels_getD mono 1 2 (by omega) (by omega)
        (by omega) frame 0 (by simpa using hf) (by omega)
      simpa using h
    · have h := adapt_channels_getD mono 1 2 (by omega) (by omega)
        (by omega) frame 1 (by simpa using hf) (by omega)
      simpa using h
  · intro stereo frame hf
    have h := adapt_channels_getD stereo 2 1 (by omega) (by omega)
      (by omega) frame 0 hf (by omega)
    simpa using h

/-- Witness for C6 at `samples = [3, 4]`, `src = 1`, `dst = 2`. -/
theorem adapt_channels_spec_witness :
    ((0 : Nat) < 1 ∧ (0 : Nat) < 2 ∧ (1 : Nat) ≠ 2) ∧
    (adapt_channels [3, 4] 1 2).length = 4 ∧
    (adapt_channels [3, 4] 1 2).getD 2 0 = 4 ∧
    (adapt_channels [3, 4] 1 2).getD 3 0 = 4 := by
  have h := adapt_channels_spec [3, 4] 1 2 (by decide) (by decide) (by decide)
  refine ⟨⟨by decide, by decide, by decide⟩, by simpa using h.1, ?_, ?_⟩
  · have h2 := h.2.1 1 0 (by decide) (by decide) (by decide)
    simpa using h2
  · have h3 := h.2.2.1 1 1 (by decide) (by decide) (by decide)
    simpa using h3

/-- C1: the hardware callback fills the whole output buffer; with the
playing flag false it emits pure silence and leaves the shared state
untouched; with read access denied it emits silence; on a successful read
it copies exactly `min remaining requested` samples starting at `cursor`,
zero-fills the rest, advances `cursor` by exactly the number copied, and
clears the playing flag iff fewer samples remained than requested. -/
theorem audio_callback_spec (dataLen : Nat) (canRead : Bool)
    (s : SharedState) :
    (audio_callback dataLen canRead s).1.length = dataLen ∧
    (s.playing = false →
      audio_callback dataLen canRead s = (List.replicate dataLen 0, s)) ∧
    (s.playing = true → canRead = false →
      audio_callback dataLen canRead s = (List.replicate dataLen 0, s)) ∧
    (s.playing = true → canRead = true →
      (∀ i, i < min (s.samples.length - s.cursor) dataLen →
        (audio_callback dataLen canRead s).1.getD i 0 =
          s.samples.getD (s.cursor + i) 0) ∧
      (∀ i, min (s.samples.length - s.cursor) dataLen ≤ i →
        (audio_callback dataLen canRead s).1.getD i 0 = 0) ∧
      (audio_callback dataLen canRead s).2.cursor =
        s.cursor + min (s.samples.length - s.cursor) dataLen ∧
      (audio_callback dataLen canRead s).2.samples = s.samples ∧
      (audio_callback dataLen canRead s).2.total_frames = s.total_frames ∧
      (audio_callback dataLen canRead s).2.playing =
        (if s.samples.length - s.cursor < dataLen then false
         else true)) := by
  cases hps : s.playing with
  | false =>
    refine ⟨?_, ?_, ?_, ?_⟩ <;> simp [audio_callback, hps]
  | true =>
    cases hcr : canRead with
    | false =>
      refine ⟨?_, ?_, ?_, ?_⟩ <;> simp [audio_callback, hps]
    | true =>
      have htlen :
          ((s.samples.drop s.cursor).take
            (min (s.samples.length - s.cursor) dataLen)).length =
            min (s.samples.length - s.cursor) dataLen := by
        simp
      refine ⟨?_, by simp [hps], by simp [hps], fun _ _ => ⟨?_, ?_, ?_, ?_, ?_, ?_⟩⟩
      · simp [audio_callback, hps]
      · intro i hi
        have hcl : s.cursor + i < s.samples.length := by omega
        simp only [audio_callback, hps, Bool.not_true, Bool.false_eq_true,
          if_false, if_true]
        rw [List.getD_append _ _ _ _ (by rw [htlen]; exact hi)]
        rw [List.getD_eq_getElem _ _ (by rw [htlen]; exact hi)]
        rw [List.getD_eq_getElem _ _ hcl]
        rw [List.getElem_take, List.getElem_drop]
      · intro i hi
        simp only [audio_callback, hps, Bool.not_true, Bool.false_eq_true,
          if_false, if_true]
        rw [List.getD_append_right _ _ _ _ (by rw [htlen]; exact hi)]
        rw [htlen]
        exact getD_replicate_zero _ _
      · simp [audio_callback, hps]
      · simp [audio_callback, hps]
        split <;> simp
      · simp [audio_callback, hps]
        split <;> simp
      · simp [audio_callback, hps]
        by_cases h : s.samples.length - s.cursor < dataLen
        · simp [h]
        · simp [h, hps]

/-- Witness for C1 at `dataLen = 3`, `canRead = true`,
`s = ⟨[5, 6, 7], 1, true, 1⟩` (two samples remain, three requested). -/
theorem audio_callback_spec_witness :
    (SharedState.playing ⟨[5, 6, 7], 1, true, 1⟩ = true ∧ true = true) ∧
    (audio_callback 3 true ⟨[5, 6, 7], 1, true, 1⟩).1.getD 0 0 = 6 ∧
    (audio_callback 3 true ⟨[5, 6, 7], 1, true, 1⟩).1.getD 2 0 = 0 ∧
    (audio_callback 3 true ⟨[5, 6, 7], 1, true, 1⟩).2.cursor = 3 ∧
    (audio_callback 3 true ⟨[5, 6, 7], 1, true, 1⟩).2.playing = false := by
  have h := audio_callback_spec 3 true ⟨[5, 6, 7], 1, true, 1⟩
  have h4 := h.2.2.2 rfl rfl
  refine ⟨⟨rfl, rfl⟩, ?_, ?_, ?_, ?_⟩
  · simpa using h4.1 0 (by decide)
  · simpa using h4.2.1 2 (by decide)
  · simpa using h4.2.2.1
  · simpa using h4.2.2.2.2.2

/-- C2: when a pending load's channel holds a successful `PreparedAudio`
result, `poll` commits it: the shared samples become the prepared samples,
the cursor resets to 0, `total_frames` becomes the prepared frame count,
the playing flag is set, the current-file record becomes the prepared
file, the pending load is cleared, and no error is returned. -/
theorem poll_commit_spec (e : PlaybackEngine) (p : PendingLoad)
    (audio : PreparedAudio) (hp : e.pending = some p) :
    (poll (.msg (.ok audio)) e).1.shared.samples = audio.samples ∧
    (poll (.msg (.ok audio)) e).1.shared.cursor = 0 ∧
    (poll (.msg (.ok audio)) e).1.shared.total_frames = audio.total_frames ∧
    (poll (.msg (.ok audio)) e).1.shared.playing = true ∧
    (poll (.msg (.ok audio)) e).1.current_file = some audio.file ∧
    (poll (.msg (.ok audio)) e).1.pending = none ∧
    (poll (.msg (.ok audio)) e).2 = none := by
  simp [poll, hp]

/-- Witness for C2 on a concrete engine with a pending load. -/
theorem poll_commit_spec_witness :
    (PlaybackEngine.pending
        ⟨⟨[], 0, false, 0⟩, 48000, 2, none, some ⟨"a", 0⟩⟩ =
      some ⟨"a", 0⟩) ∧
    (poll (.msg (.ok ⟨[1, 2], 1, "b"⟩))
        ⟨⟨[], 0, false, 0⟩, 48000, 2, none, some ⟨"a", 0⟩⟩).1.shared.samples =
      [1, 2] ∧
    (poll (.msg (.ok ⟨[1, 2], 1, "b"⟩))
        ⟨⟨[], 0, false, 0⟩, 48000, 2, none, some ⟨"a", 0⟩⟩).1.shared.playing =
      true := by
  have h := poll_commit_spec ⟨⟨[], 0, false, 0⟩, 48000, 2, none, some ⟨"a", 0⟩⟩
    ⟨"a", 0⟩ ⟨[1, 2], 1, "b"⟩ rfl
  exact ⟨rfl, h.1, h.2.2.2.1⟩

/-- C3: when `poll` surfaces an error — an error payload from the channel,
or a disconnected channel, which surfaces the decode-class
worker-terminated error — it clears the pending load, leaves the whole
shared state (samples, cursor, total_frames) unchanged, and the playing
flag remains false. -/
theorem poll_error_spec (e : PlaybackEngine) (p : PendingLoad)
    (hp : e.pending = some p) (hflag : e.shared.playing = false) :
    (∀ err, (poll (.msg (.error err)) e).1.shared = e.shared ∧
      (poll (.msg (.error err)) e).1.shared.playing = false ∧
      (poll (.msg (.error err)) e).1.pending = none ∧
      (poll (.msg (.error err)) e).2 = some err) ∧
    ((poll .disconnected e).1.shared = e.shared ∧
      (poll .disconnected e).1.shared.playing = false ∧
      (poll .disconnected e).1.pending = none ∧
      (poll .disconnected e).2 =
        some (.DecodeError "decode thread terminated unexpectedly")) := by
  refine ⟨fun err => ⟨?_, ?_, ?_, ?_⟩, ?_, ?_, ?_, ?_⟩ <;>
    simp [poll, hp, hflag]

/-- Witness for C3 on a concrete engine with a pending load. -/
theorem poll_error_spec_witness :
    (PlaybackEngine.pending
        ⟨⟨[9], 3, false, 7⟩, 48000, 2, none, some ⟨"a", 0⟩⟩ =
      some ⟨"a", 0⟩ ∧
     SharedState.playing ⟨[9], 3, false, 7⟩ = false) ∧
    (poll (.msg (.error (.DecodeError "bad")))
        ⟨⟨[9], 3, false, 7⟩, 48000, 2, none, some ⟨"a", 0⟩⟩).1.shared =
      ⟨[9], 3, false, 7⟩ ∧
    (poll .disconnected
        ⟨⟨[9], 3, false, 7⟩, 48000, 2, none, some ⟨"a", 0⟩⟩).2 =
      some (.DecodeError "decode thread terminated unexpectedly") := by
  have h := poll_error_spec ⟨⟨[9], 3, false, 7⟩, 48000, 2, none, some ⟨"a", 0⟩⟩
    ⟨"a", 0⟩ rfl rfl
  exact ⟨⟨rfl, rfl⟩, (h.1 (.DecodeError "bad")).1, h.2.2.2.2⟩

/-- C4: the commit of a successful `poll` stores the buffer first, then the
counters, and the playing flag last: the write trace ends with the flag
store, no earlier write touches the flag, the trace's first write is the
sample buffer, applying the whole trace yields exactly the committed
shared state, and every trace prefix in which the flag reads true already
contains the new buffer and counters. -/
theorem commit_order_spec (e : PlaybackEngine) (p : PendingLoad)
    (audio : PreparedAudio) (hp : e.pending = some p)
    (hflag : e.shared.playing = false) :
    (commit_trace audio).getLast? = some (.wplaying true) ∧
    (∀ ev ∈ (commit_trace audio).dropLast, ∀ b, ev ≠ .wplaying b) ∧
    (commit_trace audio).take 1 = [.wsamples audio.samples] ∧
    applyEvents e.shared (commit_trace audio) =
      (poll (.msg (.ok audio)) e).1.shared ∧
    (∀ k,
      (applyEvents e.shared ((commit_trace audio).take k)).playing = true →
      (applyEvents e.shared ((commit_trace audio).take k)).samples =
          audio.samples ∧
      (applyEvents e.shared ((commit_trace audio).take k)).cursor = 0 ∧
      (applyEvents e.shared ((commit_trace audio).take k)).total_frames =
          audio.total_frames) := by
  refine ⟨rfl, ?_, rfl, ?_, ?_⟩
  · intro ev hev b
    simp only [commit_trace, List.dropLast, List.mem_cons,
      List.not_mem_nil, or_false] at hev
    rcases hev with h | h | h <;> subst h <;> simp
  · simp [poll, hp, applyEvents, commit_trace, applyEvent]
  · intro k
    rcases k with _ | _ | _ | _ | k <;>
      simp [commit_trace, applyEvents, applyEvent, hflag, List.take_succ_cons]

/-- Witness for C4 on a concrete engine and prepared buffer. -/
theorem commit_order_spec_witness :
    (PlaybackEngine.pending
        ⟨⟨[], 0, false, 0⟩, 48000, 2, none, some ⟨"a", 0⟩⟩ =
      some ⟨"a", 0⟩ ∧
     SharedState.playing ⟨[], 0, false, 0⟩ = false) ∧
    (commit_trace ⟨[1, 2], 1, "b"⟩).getLast? = some (.wplaying true) ∧
    (applyEvents ⟨[], 0, false, 0⟩
        ((commit_trace ⟨[1, 2], 1, "b"⟩).take 4)).samples = [1, 2] := by
  have h := commit_order_spec
    ⟨⟨[], 0, false, 0⟩, 48000, 2, none, some ⟨"a", 0⟩⟩
    ⟨"a", 0⟩ ⟨[1, 2], 1, "b"⟩ rfl rfl
  exact ⟨⟨rfl, rfl⟩, h.1, (h.2.2.2.2 4 (by decide)).1⟩

/-- C10: the invariant "cursor ≤ buffer length whenever the playing flag is
set" is preserved by every `poll` transition, established by every commit
(cursor reset to 0), and preserved by every callback invocation; under it
the callback's slice bounds `cursor + to_copy ≤ samples.length` and
`to_copy ≤ dataLen` always hold, so the callback's slice accesses are in
bounds. -/
theorem cursor_bounds_spec (dataLen : Nat) (canRead : Bool)
    (s : SharedState) :
    (∀ e : PlaybackEngine, ∀ recv, cursorInv e.shared →
      cursorInv (poll recv e).1.shared) ∧
    (∀ e : PlaybackEngine, ∀ p audio, e.pending = some p →
      (poll (.msg (.ok audio)) e).1.shared.cursor = 0 ∧
      cursorInv (poll (.msg (.ok audio)) e).1.shared) ∧
    (cursorInv s → cursorInv (audio_callback dataLen canRead s).2) ∧
    (cursorInv s → s.playing = true → canRead = true →
      s.cursor + min (s.samples.length - s.cursor) dataLen ≤
        s.samples.length ∧
      min (s.samples.length - s.cursor) dataLen ≤ dataLen) := by
  refine ⟨?_, ?_, ?_, ?_⟩
  · intro e recv h
    cases hp : e.pending with
    | none => simpa [poll, hp] using h
    | some p =>
      cases recv with
      | msg r =>
        cases r with
        | ok audio => simp [poll, hp, cursorInv]
        | error err => simpa [poll, hp] using h
      | empty => simpa [poll, hp] using h
      | disconnected => simpa [poll, hp] using h
  · intro e p audio hp
    refine ⟨?_, ?_⟩ <;> simp [poll, hp, cursorInv]
  · intro h
    cases hps : s.playing with
    | false =>
      cases canRead <;> simpa [audio_callback, hps] using h
    | true =>
      cases canRead with
      | false => simpa [audio_callback, hps] using h
      | true =>
        have hc : s.cursor ≤ s.samples.length := h hps
        simp only [audio_callback, hps, Bool.not_true, Bool.false_eq_true,
          if_false, if_true, cursorInv]
        intro hplay
        split at hplay <;> simp_all <;> omega
  · intro h hps _
    have hc : s.cursor ≤ s.samples.length := h hps
    omega

/-- Witness for C10 at a concrete playing state with the cursor strictly
inside the buffer. -/
theorem cursor_bounds_spec_witness :
    cursorInv ⟨[5, 6], 1, true, 1⟩ ∧
    cursorInv (audio_callback 3 true ⟨[5, 6], 1, true, 1⟩).2 ∧
    1 + min (2 - 1) 3 ≤ 2 := by
  have hinv : cursorInv ⟨[5, 6], 1, true, 1⟩ := fun _ => by decide
  have h := cursor_bounds_spec 3 true ⟨[5, 6], 1, true, 1⟩
  exact ⟨hinv, h.2.2.1 hinv, by simpa using (h.2.2.2 hinv rfl rfl).1⟩

/-- C7: a successful `decode_and_prepare` — for any decoder output made of
whole frames and any resampler processing that preserves the per-channel
vector count — returns a buffer whose length is an exact multiple of the
target channel count, a `total_frames` equal to `samples.length / tc` with
no remainder, and the original file path. -/
theorem prepare_frames_spec (path : String) (packets : List PacketEvent)
    (src_channels src_rate : Nat)
    (proc : List (List Sample) → List (List Sample)) (tc tr : Nat)
    (htc : 0 < tc)
    (hchunks : ∀ s, PacketEvent.chunk s ∈ packets → src_channels ∣ s.length)
    (hproc : ∀ cd, (proc cd).length = cd.length)
    (audio : PreparedAudio)
    (h : decode_and_prepare path packets src_channels src_rate proc tc tr =
      .ok audio) :
    tc ∣ audio.samples.length ∧
    audio.total_frames = audio.samples.length / tc ∧
    audio.total_frames * tc = audio.samples.length ∧
    audio.file = path := by
  obtain ⟨hfile, htf, d, hdf, hcase⟩ :=
    decode_and_prepare_ok _ _ _ _ _ _ _ _ h
  obtain ⟨hcs, hch, hsr, hne⟩ := decode_file_ok _ _ _ _ hdf
  have hcol : src_channels ∣ d.interleaved.length :=
    collect_samples_dvd src_channels packets [] d.interleaved hchunks
      (by simp) hcs
  have hdvd : tc ∣ audio.samples.length := by
    rcases hcase with ⟨_, hres⟩ | ⟨_, heq⟩
    · exact resample_ok_dvd proc hproc _ _ _ _ _ hres
    · rw [heq]
      by_cases hst : d.channels = tc
      · rw [hst, adapt_channels_eq]
        rw [← hch, hst] at hcol
        exact hcol
      · by_cases hz : d.channels = 0
        · rw [← hch, hz] at hcol
          have hlen : d.interleaved.length = 0 :=
            Nat.eq_zero_of_zero_dvd hcol
          exact absurd (List.length_eq_zero.mp hlen) hne
        · rw [adapt_channels_length_ne _ _ _ hz (by omega) hst]
          exact ⟨_, Nat.mul_comm _ _⟩
  refine ⟨hdvd, htf, ?_, hfile⟩
  rw [htf, Nat.div_mul_cancel hdvd]

/-- Witness for C7: a mono 44.1 kHz source prepared for a stereo 48 kHz
device (both channel adaptation and resampling run). -/
theorem prepare_frames_spec_witness :
    decode_and_prepare "a" [.chunk [1, 2]] 1 44100 id 2 48000 =
      .ok ⟨[1, 1, 2, 2], 2, "a"⟩ ∧
    (2 : Nat) ∣ (4 : Nat) ∧ (2 : Nat) = 4 / 2 := by
  refine ⟨by rfl, ?_, by decide⟩
  have h := prepare_frames_spec "a" [.chunk [1, 2]] 1 44100 id 2 48000
    (by decide) (fun s _ => one_dvd _) (fun cd => rfl)
    ⟨[1, 1, 2, 2], 2, "a"⟩ (by rfl)
  simpa using h.1

/-- C8: a decode whose packet loop extracts zero samples yields the decode
error, never a successful empty buffer; every successful decode carries a
nonempty buffer; and a decode error propagates unchanged through the
whole preparation pipeline, so downstream code never receives a
zero-length buffer. -/
theorem decode_empty_spec (packets : List PacketEvent)
    (channels sample_rate : Nat) :
    (collect_samples packets [] = .ok [] →
      decode_file packets channels sample_rate =
        .error (.DecodeError "no audio data decoded")) ∧
    (∀ d, decode_file packets channels sample_rate = .ok d →
      d.interleaved ≠ []) ∧
    (∀ err, decode_file packets channels sample_rate = .error err →
      ∀ path proc tc tr,
        decode_and_prepare path packets channels sample_rate proc tc tr =
          .error err) := by
  refine ⟨?_, ?_, ?_⟩
  · intro hc
    unfold decode_file
    rw [hc]
    rfl
  · intro d hd
    exact (decode_file_ok _ _ _ _ hd).2.2.2
  · intro err herr path proc tc tr
    unfold decode_and_prepare
    rw [herr]

/-- Witness for C8: a stream whose only packet is skipped decodes to the
zero-samples error. -/
theorem decode_empty_spec_witness :
    collect_samples [PacketEvent.skip] [] = .ok [] ∧
    decode_file [PacketEvent.skip] 2 44100 =
      .error (.DecodeError "no audio data decoded") := by
  have h := decode_empty_spec [PacketEvent.skip] 2 44100
  exact ⟨rfl, h.1 rfl⟩

/-- C9: when the decoded source sample rate equals the target rate the
pipeline skips the resampler entirely: the channel-adapted buffer passes
through unchanged into the `PreparedAudio` result, and the pipeline's
outcome does not depend on the resampler at all. -/
theorem prepare_skip_resample_spec (path : String)
    (packets : List PacketEvent) (src_channels src_rate : Nat)
    (proc proc2 : List (List Sample) → List (List Sample)) (tc tr : Nat)
    (hrate : src_rate = tr) :
    (∀ d, decode_file packets src_channels src_rate = .ok d →
      decode_and_prepare path packets src_channels src_rate proc tc tr =
        .ok ⟨adapt_channels d.interleaved d.channels tc,
             (adapt_channels d.interleaved d.channels tc).length / tc,
             path⟩) ∧
    decode_and_prepare path packets src_channels src_rate proc tc tr =
      decode_and_prepare path packets src_channels src_rate proc2 tc tr := by
  have key : ∀ pr : List (List Sample) → List (List Sample),
      decode_and_prepare path packets src_channels src_rate pr tc tr =
      match decode_file packets src_channels src_rate with
      | .error e => .error e
      | .ok d => .ok ⟨adapt_channels d.interleaved d.channels tc,
                      (adapt_channels d.interleaved d.channels tc).length /
                        tc,
                      path⟩ := by
    intro pr
    unfold decode_and_prepare
    cases hdf : decode_file packets src_channels src_rate with
    | error e => rfl
    | ok d =>
      have hsr : d.sample_rate = tr :=
        ((decode_file_ok _ _ _ _ hdf).2.2.1).trans hrate
      show (match (if d.sample_rate ≠ tr then
          resample pr (adapt_channels d.interleaved d.channels tc) tc
            d.sample_rate tr
        else .ok (adapt_channels d.interleaved d.channels tc)) with
        | Except.error e =>
            (Except.error e : Except PlaybackError PreparedAudio)
        | Except.ok samples =>
            Except.ok ⟨samples, samples.length / tc, path⟩) =
        .ok ⟨adapt_channels d.interleaved d.channels tc,
             (adapt_channels d.interleaved d.channels tc).length / tc,
             path⟩
      rw [if_neg (by simp [hsr])]
  refine ⟨?_, ?_⟩
  · intro d hdf
    rw [key proc, hdf]
  · rw [key proc, key proc2]

/-- Witness for C9: a mono 48 kHz source on a 48 kHz device; the result is
independent of the resampler, here compared against a resampler that
returns nothing. -/
theorem prepare_skip_resample_spec_witness :
    (48000 : Nat) = 48000 ∧
    decode_and_prepare "a" [.chunk [7]] 1 48000 id 1 48000 =
      decode_and_prepare "a" [.chunk [7]] 1 48000 (fun _ => []) 1 48000 ∧
    decode_and_prepare "a" [.chunk [7]] 1 48000 id 1 48000 =
      .ok ⟨[7], 1, "a"⟩ := by
  have h := prepare_skip_resample_spec "a" [.chunk [7]] 1 48000 id
    (fun _ => []) 1 48000 rfl
  refine ⟨rfl, h.2, ?_⟩
  have h1 := h.1 ⟨[7], 1, 48000⟩ (by rfl)
  exact h1

/-- C5: a second `play` before the first load completes immediately clears
the playing flag and replaces the pending load with one bound to the new
worker's fresh channel; any deliverable success message on that channel is
the second worker's `decode_and_prepare` result, so a subsequent `poll`
commit can only record the second file — the first worker's result is
never committed. -/
theorem play_supersede_spec (w : World) (p1 p2 : String) :
    ((play w p1).engine.shared.playing = false) ∧
    ((play w p1).engine.pending = some ⟨p1, w.nextChan⟩) ∧
    ((play (play w p1) p2).engine.shared.playing = false) ∧
    ((play (play w p1) p2).engine.pending =
      some ⟨p2, w.nextChan + 1⟩) ∧
    (w.nextChan + 1 ≠ w.nextChan) ∧
    ((play (play w p1) p2).worker (w.nextChan + 1) = some p2) ∧
    (∀ recv, deliverable (play (play w p1) p2) (w.nextChan + 1) recv →
      ∀ audio, recv = .msg (.ok audio) →
        audio.file = p2 ∧
        (poll recv (play (play w p1) p2).engine).1.current_file =
          some p2 ∧
        (poll recv (play (play w p1) p2).engine).1.shared.samples =
          audio.samples) := by
  refine ⟨rfl, rfl, rfl, rfl, by omega, by simp [play], ?_⟩
  intro recv hdel audio hrecv
  subst hrecv
  obtain ⟨path, packets, sc, sr, proc, hw, hr⟩ := hdel
  have hpath : p2 = path := by
    have hw' : some p2 = some path := by simpa [play] using hw
    exact Option.some.inj hw'
  subst hpath
  have hfile : audio.file = p2 :=
    (decode_and_prepare_ok _ _ _ _ _ _ _ _ hr.symm).1
  refine ⟨hfile, ?_, ?_⟩
  · simp [poll, play, hfile]
  · simp [poll, play]

/-- Witness for C5: two consecutive plays of "a" then "b" from a fresh
world; the delivery on the fresh channel is worker "b"'s result and the
commit records file "b". -/
theorem play_supersede_spec_witness :
    ((play (play ⟨⟨⟨[], 0, false, 0⟩, 48000, 2, none, none⟩,
        fun _ => none, 0⟩ "a") "b").engine.pending = some ⟨"b", 1⟩) ∧
    (PreparedAudio.file ⟨[1, 2], 1, "b"⟩ = "b") ∧
    ((poll (.msg (.ok ⟨[1, 2], 1, "b"⟩))
        (play (play ⟨⟨⟨[], 0, false, 0⟩, 48000, 2, none, none⟩,
          fun _ => none, 0⟩ "a") "b").engine).1.current_file =
      some "b") := by
  have h := play_supersede_spec
    ⟨⟨⟨[], 0, false, 0⟩, 48000, 2, none, none⟩, fun _ => none, 0⟩ "a" "b"
  have h7 := h.2.2.2.2.2.2 (.msg (.ok ⟨[1, 2], 1, "b"⟩))
    ⟨"b", [.chunk [1, 2]], 2, 48000, id, rfl, rfl⟩ ⟨[1, 2], 1, "b"⟩ rfl
  exact ⟨h.2.2.2.1, h7.1, h7.2.1⟩

